import Mathlib

/-!
# Verification of the cassandra-ruby-cpp native extension core

Shallow embedding of the C extension under `ext/cassandra_cpp/`:
the value codec (`common.cpp`, `statement.cpp`), the async future bridge
(`future.cpp`), the batch path (`batch.cpp`) and the ownership chain
(`session.cpp`, `prepared_statement.cpp`, `future.cpp`).

Conventions of the embedding:
* Ruby `VALUE`s that the extension inspects are modelled by the inductive
  `RValue`; the constructors correspond to the `TYPE(value)` tags the code
  switches on (`T_STRING`, `T_FIXNUM`, `T_BIGNUM`, `T_TRUE`/`T_FALSE`,
  `T_FLOAT`, `T_ARRAY`, `T_HASH`, and the `T_DATA`/`T_OBJECT` shapes the
  code distinguishes: `Time`, `BigDecimal`, `Set`, anything else).
* Machine integers are `Int` with explicit range checks mirroring the
  `NUM2INT` / `NUM2LONG` / `NUM2LL` conversions of the C API (which
  range-check and raise `RangeError`).  On the 64-bit CRuby the extension
  targets, a Fixnum holds exactly the integers in `[-2^62, 2^62-1]`.
* Ruby exceptions become an `Except RubyError _` result.
* Floating point payloads are carried opaquely as their bit pattern
  (no claim computes with them).
* External collaborators (the DataStax driver's `cass_uuid_from_string`
  and Ruby's `rb_obj_as_string`) are supplied as an `Ext` record of
  functions; theorems quantify over them.
* `rb_str_new` / `rb_str_new_cstr` produce ASCII-8BIT (binary) strings;
  decoded strings therefore carry `binary := true`.
* The constants `BigDecimal` and `Set` are modelled as defined in the
  host Ruby environment (the extension's standard runtime), so
  `rb_const_get_at` returns the class and the `NIL_P` guards are never
  taken.
-/

namespace CassandraCpp

/-- Fixnum range of 64-bit CRuby: `[-2^62, 2^62-1]`. -/
def fixnumMin : Int := -(2 ^ 62)

/-- See `fixnumMin`. -/
def fixnumMax : Int := 2 ^ 62 - 1

/-- Signed 32-bit bounds (`INT32_MIN` / `INT32_MAX` in `statement.cpp`). -/
def int32Min : Int := -(2 ^ 31)

/-- See `int32Min`. -/
def int32Max : Int := 2 ^ 31 - 1

/-- Signed 64-bit bounds (range checked by `NUM2LL`). -/
def int64Min : Int := -(2 ^ 63)

/-- See `int64Min`. -/
def int64Max : Int := 2 ^ 63 - 1

/-- `n` fits in a signed 32-bit integer. -/
def inInt32 (n : Int) : Bool := int32Min ≤ n && n ≤ int32Max

/-- `n` fits in a signed 64-bit integer. -/
def inInt64 (n : Int) : Bool := int64Min ≤ n && n ≤ int64Max

/-- `n` is representable as a Fixnum (`FIXNUM_P` holds for its `VALUE`). -/
def isFixnum (n : Int) : Bool := fixnumMin ≤ n && n ≤ fixnumMax

/-- A Ruby string: its byte content plus whether its encoding is
ASCII-8BIT (the binary encoding the code tests for). -/
structure RString where
  bytes : List Nat
  binary : Bool
deriving DecidableEq, Repr

/-- Byte content of a Lean string literal (all literals used are ASCII,
so the code point equals the byte). -/
def strBytes (s : String) : List Nat := s.data.map Char.toNat

/-- The Ruby values the extension dispatches on, one constructor per
runtime shape distinguished by the `switch (TYPE(value))` statements. -/
inductive RValue where
  /-- `Qnil` -/
  | nilV : RValue
  /-- `T_STRING` -/
  | str : RString → RValue
  /-- `T_FIXNUM` (integer in the Fixnum range) -/
  | fixnum : Int → RValue
  /-- `T_BIGNUM` (integer outside the Fixnum range) -/
  | bignum : Int → RValue
  /-- `Qtrue` / `Qfalse` -/
  | boolV : Bool → RValue
  /-- `T_FLOAT`, payload carried as its IEEE-754 bit pattern -/
  | floatV : Nat → RValue
  /-- `T_ARRAY` -/
  | array : List RValue → RValue
  /-- `T_HASH`, pairs in Ruby's insertion-iteration order -/
  | hash : List (RValue × RValue) → RValue
  /-- a `Time` object; `to_f * 1000` truncated to `cass_int64_t`
      is carried directly as milliseconds -/
  | timeObj : Int → RValue
  /-- a `BigDecimal` object, carried as its `to_s` string -/
  | bigDecimalObj : String → RValue
  /-- a `Set` object, `to_a` order of its elements -/
  | setObj : List RValue → RValue
  /-- any other `T_DATA`/`T_OBJECT`/default-tag object -/
  | otherObj : Nat → RValue

/-- The CRuby integer `VALUE` representing the mathematical integer `n`:
a Fixnum when `n` is in the Fixnum range, a Bignum otherwise. -/
def rubyIntOf (n : Int) : RValue :=
  if isFixnum n then .fixnum n else .bignum n

/-- Ruby exceptions the modelled code can raise. -/
inductive RubyError where
  /-- `rb_eArgError` with its message -/
  | argumentError : String → RubyError
  /-- `RangeError` raised by `NUM2INT` / `NUM2LL` on an out-of-range value -/
  | rangeError : RubyError
  /-- `rb_eCassandraError`; carries the operation label passed to
      `raise_cassandra_error` (or the literal message) and the native
      error message bytes -/
  | cassandraError : String → List Nat → RubyError
deriving DecidableEq, Repr

/-- A typed column value returned by the driver
(`CassValue` as observed through the `cass_value_*` accessors);
one constructor per `CASS_VALUE_TYPE_*` case that
`convert_cass_value_to_ruby` handles, plus `unsupported` for every other
type tag (the `default:` branch). -/
inductive CassValue where
  /-- `cass_value_is_null` -/
  | nullV : CassValue
  /-- TEXT / VARCHAR -/
  | text : List Nat → CassValue
  /-- INT (32-bit payload) -/
  | intV : Int → CassValue
  /-- BIGINT (64-bit payload) -/
  | bigint : Int → CassValue
  /-- BOOLEAN -/
  | boolean : Bool → CassValue
  /-- UUID, carried as its canonical string form -/
  | uuid : String → CassValue
  /-- FLOAT, bit pattern -/
  | floatV : Nat → CassValue
  /-- DOUBLE, bit pattern -/
  | doubleV : Nat → CassValue
  /-- TIMESTAMP, milliseconds since epoch -/
  | timestamp : Int → CassValue
  /-- DECIMAL: unscaled bytes and scale -/
  | decimal : List Nat → Int → CassValue
  /-- BLOB -/
  | blob : List Nat → CassValue
  /-- LIST -/
  | listV : List CassValue → CassValue
  /-- SET -/
  | setV : List CassValue → CassValue
  /-- MAP -/
  | mapV : List (CassValue × CassValue) → CassValue
  /-- TUPLE -/
  | tupleV : List CassValue → CassValue
  /-- any `CASS_VALUE_TYPE_*` tag outside the handled set -/
  | unsupported : Nat → CassValue

/-- The sentinel produced by the decoder's `default:` branch
(`rb_str_new_cstr("[unsupported type]")`). -/
def unsupportedSentinel : RValue :=
  .str ⟨strBytes "[unsupported type]", true⟩

/-- `convert_cass_value_to_ruby` (`common.cpp`): decodes one driver value
into a Ruby value.  Total: every branch returns; no branch raises. -/
def convert_cass_value_to_ruby : CassValue → RValue
  | .nullV => .nilV
  | .text b => .str ⟨b, true⟩
  | .intV n => rubyIntOf n
  | .bigint n => rubyIntOf n
  | .boolean b => .boolV b
  | .uuid u => .str ⟨strBytes u, true⟩
  | .floatV bits => .floatV bits
  | .doubleV bits => .floatV bits
  | .timestamp ms => .timeObj ms
  | .decimal _ _ => .bigDecimalObj "0"
  | .blob b => .str ⟨b, true⟩
  | .listV es => .array (es.attach.map fun e => convert_cass_value_to_ruby e.1)
  | .setV es => .setObj (es.attach.map fun e => convert_cass_value_to_ruby e.1)
  | .mapV ps =>
      .hash (ps.attach.map fun p =>
        (convert_cass_value_to_ruby p.1.1, convert_cass_value_to_ruby p.1.2))
  | .tupleV es => .array (es.attach.map fun e => convert_cass_value_to_ruby e.1)
  | .unsupported _ => unsupportedSentinel
decreasing_by
  all_goals simp_wf
  all_goals
    first
      | (have he := List.sizeOf_lt_of_mem e.2; omega)
      | (have h := List.sizeOf_lt_of_mem p.2
         obtain ⟨⟨a, b⟩, hp⟩ := p
         simp at h ⊢
         omega)

/-- Evaluation lemma for the LIST branch of the decoder. -/
@[simp] theorem convert_listV (es : List CassValue) :
    convert_cass_value_to_ruby (.listV es) =
      .array (es.map convert_cass_value_to_ruby) := by
  rw [convert_cass_value_to_ruby]
  simp [List.attach_map_val]

/-- Evaluation lemma for the SET branch of the decoder. -/
@[simp] theorem convert_setV (es : List CassValue) :
    convert_cass_value_to_ruby (.setV es) =
      .setObj (es.map convert_cass_value_to_ruby) := by
  rw [convert_cass_value_to_ruby]
  simp [List.attach_map_val]

/-- Evaluation lemma for the TUPLE branch of the decoder. -/
@[simp] theorem convert_tupleV (es : List CassValue) :
    convert_cass_value_to_ruby (.tupleV es) =
      .array (es.map convert_cass_value_to_ruby) := by
  rw [convert_cass_value_to_ruby]
  simp [List.attach_map_val]

/-- Evaluation lemma for the MAP branch of the decoder. -/
@[simp] theorem convert_mapV (ps : List (CassValue × CassValue)) :
    convert_cass_value_to_ruby (.mapV ps) =
      .hash (ps.map fun p =>
        (convert_cass_value_to_ruby p.1, convert_cass_value_to_ruby p.2)) := by
  rw [convert_cass_value_to_ruby]
  exact congrArg RValue.hash
    (List.attach_map_val ps fun p =>
      (convert_cass_value_to_ruby p.1, convert_cass_value_to_ruby p.2))

/-! ## The encoders (`statement.cpp`) -/

/-- Kind tag of a native `CassCollection`
(`CASS_COLLECTION_TYPE_LIST` / `_SET` / `_MAP`). -/
inductive CollKind where
  | list : CollKind
  | set : CollKind
  | map : CollKind
deriving DecidableEq, Repr

/-- A value as bound into a native statement or collection: the wire
type chosen by the encoder together with the payload handed to the
corresponding `cass_statement_bind_*` / `cass_collection_append_*`
call.  A collection is the ordered sequence of appended elements
(for a MAP collection: key, value, key, value, ...). -/
inductive WireValue where
  | nullW : WireValue
  | int32 : Int → WireValue
  | int64 : Int → WireValue
  | boolW : Bool → WireValue
  | doubleW : Nat → WireValue
  | textW : List Nat → WireValue
  | bytesW : List Nat → WireValue
  | uuidW : String → WireValue
  | collectionW : CollKind → List WireValue → WireValue

/-- External collaborators, supplied at the boundary:
`parseUuid` models the driver's `cass_uuid_from_string` (`some u` on a
successful parse, with `u` the canonical string form of the parsed
UUID), `objToS` models Ruby's `rb_obj_as_string` for the objects the
code stringifies as a last resort.  Theorems quantify over this record. -/
structure Ext where
  parseUuid : List Nat → Option String
  objToS : RValue → List Nat

/-- The 36-characters-with-dashes-at-8/13/18/23 test
(`len == 36 && str[8] == '-' && str[13] == '-' && str[18] == '-' &&
str[23] == '-'`). -/
def hasUuidShape (b : List Nat) : Bool :=
  b.length == 36 && b.getD 8 0 == 45 && b.getD 13 0 == 45 &&
    b.getD 18 0 == 45 && b.getD 23 0 == 45

/-- `bind_ruby_value_to_collection` (`statement.cpp`): append one Ruby
value to a native collection.  `ok none` means the value was skipped
(the nil case appends nothing and returns `CASS_OK`); `ok (some w)`
means `w` was appended; `error e` means a Ruby exception was raised
(`StringValueCStr` on an embedded NUL, `NUM2INT`/`NUM2LL` on an
out-of-range integer).  Note the nested `T_ARRAY`/`T_HASH` shapes reach
the `default:` branch and are stringified, and the `T_FIXNUM` branch
converts through `NUM2INT` unconditionally. -/
def bind_ruby_value_to_collection (E : Ext) : RValue → Except RubyError (Option WireValue)
  | .nilV => .ok none
  | .str s =>
      if s.bytes.contains 0 then
        .error (.argumentError "string contains null byte")
      else if hasUuidShape s.bytes then
        match E.parseUuid s.bytes with
        | some u => .ok (some (.uuidW u))
        | none => .ok (some (.textW s.bytes))
      else .ok (some (.textW s.bytes))
  | .fixnum n =>
      if inInt32 n then .ok (some (.int32 n)) else .error .rangeError
  | .bignum n =>
      if inInt64 n then .ok (some (.int64 n)) else .error .rangeError
  | .boolV b => .ok (some (.boolW b))
  | .floatV bits => .ok (some (.doubleW bits))
  | .timeObj ms => .ok (some (.int64 ms))
  | .bigDecimalObj s =>
      if (strBytes s).contains 0 then
        .error (.argumentError "string contains null byte")
      else .ok (some (.textW (strBytes s)))
  | .array es =>
      if (E.objToS (.array es)).contains 0 then
        .error (.argumentError "string contains null byte")
      else .ok (some (.textW (E.objToS (.array es))))
  | .hash ps =>
      if (E.objToS (.hash ps)).contains 0 then
        .error (.argumentError "string contains null byte")
      else .ok (some (.textW (E.objToS (.hash ps))))
  | .setObj es =>
      if (E.objToS (.setObj es)).contains 0 then
        .error (.argumentError "string contains null byte")
      else .ok (some (.textW (E.objToS (.setObj es))))
  | .otherObj oid =>
      if (E.objToS (.otherObj oid)).contains 0 then
        .error (.argumentError "string contains null byte")
      else .ok (some (.textW (E.objToS (.otherObj oid))))

/-- The element loop of the `T_ARRAY` (and Set) branch of
`bind_ruby_value_to_statement`: append each element in order, abort on
the first error; skipped elements (`none`) contribute nothing. -/
def bindElems (E : Ext) : List RValue → Except RubyError (List WireValue)
  | [] => .ok []
  | v :: rest => do
      let r ← bind_ruby_value_to_collection E v
      let ws ← bindElems E rest
      pure (r.toList ++ ws)

/-- The pair loop of the `T_HASH` branch: for each key (in Ruby's
`keys` order) append the key then the value. -/
def bindPairs (E : Ext) : List (RValue × RValue) → Except RubyError (List WireValue)
  | [] => .ok []
  | (k, v) :: rest => do
      let rk ← bind_ruby_value_to_collection E k
      let rv ← bind_ruby_value_to_collection E v
      let ws ← bindPairs E rest
      pure (rk.toList ++ rv.toList ++ ws)

/-- `bind_ruby_value_to_statement` (`statement.cpp`): encode one Ruby
value into a bind on a native statement.  Returns the bound wire value,
or the Ruby exception raised. -/
def bind_ruby_value_to_statement (E : Ext) : RValue → Except RubyError WireValue
  | .nilV => .ok .nullW
  | .str s =>
      let hasNul := s.bytes.contains 0
      let fallback : Except RubyError WireValue :=
        if s.binary || hasNul then .ok (.bytesW s.bytes)
        else .ok (.textW s.bytes)
      if hasUuidShape s.bytes then
        if hasNul then fallback
        else
          match E.parseUuid s.bytes with
          | some u => .ok (.uuidW u)
          | none => fallback
      else fallback
  | .fixnum n =>
      if inInt32 n then .ok (.int32 n) else .ok (.int64 n)
  | .bignum n =>
      if inInt64 n then .ok (.int64 n) else .error .rangeError
  | .boolV b => .ok (.boolW b)
  | .floatV bits => .ok (.doubleW bits)
  | .array es => do
      let ws ← bindElems E es
      pure (.collectionW .list ws)
  | .hash ps => do
      let ws ← bindPairs E ps
      pure (.collectionW .map ws)
  | .timeObj ms => .ok (.int64 ms)
  | .bigDecimalObj s =>
      if (strBytes s).contains 0 then
        .error (.argumentError "string contains null byte")
      else .ok (.textW (strBytes s))
  | .setObj es => do
      let ws ← bindElems E es
      pure (.collectionW .set ws)
  | .otherObj oid =>
      if (E.objToS (.otherObj oid)).contains 0 then
        .error (.argumentError "string contains null byte")
      else .ok (.textW (E.objToS (.otherObj oid)))

/-- Model of the external driver boundary for round-trip statements: a
column read back from the database carries the wire type it was bound
with and the payload unchanged.  (MAP collections come back as their
key/value pairs, pairing consecutive appended elements.) -/
def pairUp {α : Type} : List α → List (α × α)
  | a :: b :: rest => (a, b) :: pairUp rest
  | _ => []

/-- See `pairUp`: the driver-side identity between a bound value and the
`CassValue` later observed for that column. -/
def wireToCass : WireValue → CassValue
  | .nullW => .nullV
  | .int32 n => .intV n
  | .int64 n => .bigint n
  | .boolW b => .boolean b
  | .doubleW bits => .doubleV bits
  | .textW b => .text b
  | .bytesW b => .blob b
  | .uuidW u => .uuid u
  | .collectionW .list es => .listV (es.attach.map fun e => wireToCass e.1)
  | .collectionW .set es => .setV (es.attach.map fun e => wireToCass e.1)
  | .collectionW .map es => .mapV (pairUp (es.attach.map fun e => wireToCass e.1))
decreasing_by
  all_goals simp_wf
  all_goals (have he := List.sizeOf_lt_of_mem e.2; omega)

/-- Scalar evaluation lemmas for `wireToCass`. -/
@[simp] theorem wireToCass_int32 (n : Int) : wireToCass (.int32 n) = .intV n := by
  rw [wireToCass]

/-- See `wireToCass_int32`. -/
@[simp] theorem wireToCass_int64 (n : Int) : wireToCass (.int64 n) = .bigint n := by
  rw [wireToCass]

/-- Scalar evaluation lemmas for the decoder. -/
@[simp] theorem convert_intV (n : Int) :
    convert_cass_value_to_ruby (.intV n) = rubyIntOf n := by
  rw [convert_cass_value_to_ruby]

/-- See `convert_intV`. -/
@[simp] theorem convert_bigint (n : Int) :
    convert_cass_value_to_ruby (.bigint n) = rubyIntOf n := by
  rw [convert_cass_value_to_ruby]

/-- See `convert_intV`. -/
@[simp] theorem convert_decimal (b : List Nat) (scale : Int) :
    convert_cass_value_to_ruby (.decimal b scale) = .bigDecimalObj "0" := by
  rw [convert_cass_value_to_ruby]

/-- See `convert_intV`. -/
@[simp] theorem convert_unsupported (tag : Nat) :
    convert_cass_value_to_ruby (.unsupported tag) = unsupportedSentinel := by
  rw [convert_cass_value_to_ruby]

/-! ## The async future bridge (`future.cpp`) and the ownership chain -/

/-- `future_type_t` (`cassandra_cpp.h`). -/
inductive FutureType where
  | execute : FutureType
  | prepare : FutureType
deriving DecidableEq, Repr

/-- One native result row as observed through the iterator: the column
names (byte content from `cass_result_column_name`) paired with the
column's value, in column order. -/
abbrev NativeRow := List (List Nat × CassValue)

/-- What the native future exposes once settled, through
`cass_future_get_prepared` (a prepared handle) and
`cass_future_get_result` (a result that may be `NULL`). -/
structure NativePayload where
  prepared : Nat
  result : Option (List NativeRow)

/-- The settled outcome of the native `CassFuture`, as observed through
`cass_future_error_code`: `ok` for `CASS_OK` with the payload
accessors, `err` with the `cass_future_error_message` bytes. -/
inductive NativeOutcome where
  | ok : NativePayload → NativeOutcome
  | err : List Nat → NativeOutcome

/-- `future_wrapper_t`: the native future's settled outcome plus the
Ruby-side fields.  `callback_proc` / `error_callback_proc` are the
registered Proc objects (by id, `none` = `Qnil`), `session_ref` the
session `VALUE` retained by the wrapper (marked by `future_mark`). -/
structure FutureW where
  outcome : NativeOutcome
  callback_proc : Option Nat
  error_callback_proc : Option Nat
  session_ref : Nat
  type : FutureType

/-- `prepared_statement_wrapper_t` plus the `@session` ivar: the native
prepared handle and the retained session. -/
structure PreparedObj where
  prepared : Nat
  session_ref : Nat
deriving DecidableEq, Repr

/-- `statement_wrapper_t` plus the `@prepared_statement` ivar: the
native statement handle, the prepared handle and the retained prepared
statement object. -/
structure StatementObj where
  statement : Nat
  prepared : Nat
  prepared_ref : PreparedObj
deriving DecidableEq, Repr

/-- `batch_wrapper_t` plus the `@session` ivar. -/
structure BatchObj where
  batch : Nat
  batchType : Int
  session_ref : Nat
deriving DecidableEq, Repr

/-- Decode one native row the way the row loops of `future.cpp`,
`session.cpp`, `statement.cpp` and `batch.cpp` do: a Ruby hash from
column-name string to decoded value, in column order. -/
def decodeRow (r : NativeRow) : RValue :=
  .hash (r.map fun c => (.str ⟨c.1, true⟩, convert_cass_value_to_ruby c.2))

/-- Decode a whole native result: the Ruby array of row hashes. -/
def decodeRows (rows : List NativeRow) : RValue :=
  .array (rows.map decodeRow)

/-- Number of `convert_cass_value_to_ruby` invocations one run of the
row-decoding loop performs on the given native result: one per cell. -/
def cellCount (rows : List NativeRow) : Nat :=
  (rows.map List.length).sum

/-- What a future's success path hands back: decoded rows for an
execute future, a freshly wrapped prepared statement for a prepare
future. -/
inductive FutureValueResult where
  | rows : RValue → FutureValueResult
  | prepared : PreparedObj → FutureValueResult

/-- The success-payload construction shared (by textual duplication in
the C source) between `future_value` and `future_execute_callbacks`:
for a prepare future, wrap the prepared handle and retain the session;
for an execute future, decode the rows (an empty array when the native
result is `NULL`). -/
def decodeOutcome (t : FutureType) (p : NativePayload) (session_ref : Nat) :
    FutureValueResult :=
  match t with
  | .prepare => .prepared ⟨p.prepared, session_ref⟩
  | .execute =>
      match p.result with
      | none => .rows (.array [])
      | some rows => .rows (decodeRows rows)

/-- Observable behaviour of one `future_value` call: the returned Ruby
value (or raised exception) and how many decoder invocations the call
performed.  The C function writes no wrapper field, so no updated state
is returned: the wrapper after the call is the wrapper before it. -/
structure ValueOut where
  result : Except RubyError FutureValueResult
  decodeCalls : Nat

/-- `future_value` (`future.cpp`).  `timeoutGiven` models a non-nil
`timeout` argument; `waitOk` the return of `cass_future_wait_timed`
(with no timeout, `cass_future_wait` blocks until the future settles,
after which `outcome` is observed).  On `CASS_OK` the outcome is
decoded afresh — there is no cache field anywhere in
`future_wrapper_t`. -/
def future_value (w : FutureW) (timeoutGiven waitOk : Bool) : ValueOut :=
  if timeoutGiven && !waitOk then
    ⟨.error (.cassandraError "Future timed out" []), 0⟩
  else
    match w.outcome with
    | .err m => ⟨.error (.cassandraError "future execution" m), 0⟩
    | .ok p =>
        match w.type with
        | .prepare => ⟨.ok (.prepared ⟨p.prepared, w.session_ref⟩), 0⟩
        | .execute =>
            match p.result with
            | none => ⟨.ok (.rows (.array [])), 0⟩
            | some rows => ⟨.ok (.rows (decodeRows rows)), cellCount rows⟩

/-- One continuation firing performed by `future_execute_callbacks`:
`rb_funcall(proc, :call, 1, arg)`. -/
inductive Invocation where
  | success : Nat → FutureValueResult → Invocation
  | failure : Nat → List Nat → Invocation

/-- `future_execute_callbacks` (`future.cpp`): the continuation
invocations one call performs.  `ready` models `cass_future_ready`.
The function writes no wrapper field — it maintains no fired/not-fired
latch — so the wrapper after the call equals the wrapper before it and
no updated state is returned. -/
def future_execute_callbacks (w : FutureW) (ready : Bool) : List Invocation :=
  if ready then
    match w.outcome with
    | .ok p =>
        match w.callback_proc with
        | some proc => [.success proc (decodeOutcome w.type p w.session_ref)]
        | none => []
    | .err m =>
        match w.error_callback_proc with
        | some proc => [.failure proc m]
        | none => []
  else []

/-- `future_then` (`future.cpp`): with no block (`blk = none`),
`rb_raise(rb_eArgError, ...)` fires before any field is touched, so the
wrapper is returned unchanged; with a block, the block's Proc replaces
`callback_proc`. -/
def future_then (w : FutureW) (blk : Option Nat) :
    Except RubyError Unit × FutureW :=
  match blk with
  | none => (.error (.argumentError "no block given for then"), w)
  | some p => (.ok (), { w with callback_proc := some p })

/-- `future_rescue` (`future.cpp`): as `future_then`, for
`error_callback_proc`. -/
def future_rescue (w : FutureW) (blk : Option Nat) :
    Except RubyError Unit × FutureW :=
  match blk with
  | none => (.error (.argumentError "no block given for rescue"), w)
  | some p => (.ok (), { w with error_callback_proc := some p })

/-- `future_new` (`future.cpp`): both callback slots start `Qnil` and
the wrapper records the session reference passed by the caller
(`create_future_from_cass_future` forwards it unchanged). -/
def future_new (outcome : NativeOutcome) (session_ref : Nat)
    (t : FutureType) : FutureW :=
  ⟨outcome, none, none, session_ref, t⟩

/-- `session_prepare` (`session.cpp`): wraps the prepared handle and
records the creating session in `session_ref` and the `@session` ivar. -/
def session_prepare (self : Nat) (preparedHandle : Nat) : PreparedObj :=
  ⟨preparedHandle, self⟩

/-- `session_batch` (`session.cpp`): the batch type defaults to
`CASS_BATCH_TYPE_LOGGED` (= 0) when no argument is given, and the
wrapper records the creating session. -/
def session_batch (self : Nat) (batchTypeArg : Option Int)
    (batchHandle : Nat) : BatchObj :=
  ⟨batchHandle, batchTypeArg.getD 0, self⟩

/-- `session_execute_async` (`session.cpp`). -/
def session_execute_async (self : Nat) (outcome : NativeOutcome) : FutureW :=
  future_new outcome self .execute

/-- `session_prepare_async` (`session.cpp`). -/
def session_prepare_async (self : Nat) (outcome : NativeOutcome) : FutureW :=
  future_new outcome self .prepare

/-- `prepared_statement_bind` (`prepared_statement.cpp`): the derived
statement stores the native prepared handle and retains the prepared
statement object itself (`prepared_ref` field and `@prepared_statement`
ivar). -/
def prepared_statement_bind (self : PreparedObj) (stmtHandle : Nat) :
    StatementObj :=
  ⟨stmtHandle, self.prepared, self⟩

/-- `batch_execute` (`batch.cpp`), from the point where the native
execute future has settled: an error raises; on success the rows
array starts empty and is filled only if `cass_future_get_result`
returned a non-`NULL` result with rows. -/
def batch_execute (outcome : NativeOutcome) : Except RubyError RValue :=
  match outcome with
  | .err m => .error (.cassandraError "batch execution" m)
  | .ok p =>
      match p.result with
      | none => .ok (.array [])
      | some rows => .ok (decodeRows rows)

/-! ## Concrete instances used by counterexamples and witnesses -/

/-- A concrete external environment: UUID parsing always fails,
`rb_obj_as_string` returns the empty string. -/
def extNone : Ext := ⟨fun _ => none, fun _ => []⟩

/-- A one-column native row: column `id` holding INT 1. -/
def row1 : NativeRow := [(strBytes "id", .intV 1)]

/-- An execute future settled with `CASS_OK` and a one-row result,
no callbacks registered. -/
def execReadyFuture : FutureW := ⟨.ok ⟨0, some [row1]⟩, none, none, 0, .execute⟩

/-- As `execReadyFuture` but with a success continuation (Proc 7)
registered. -/
def cbReadyFuture : FutureW := ⟨.ok ⟨0, some [row1]⟩, some 7, none, 0, .execute⟩

/-- A prepare future settled with `CASS_OK`, created from session 9. -/
def prepReadyFuture : FutureW := ⟨.ok ⟨42, none⟩, none, none, 9, .prepare⟩

/-- The bytes of `"aaaaaaaa-aaaa-aaaa-aaaa-aaaaaaaaaaaa"`: 36 bytes with
`-` (45) at positions 8, 13, 18, 23 — UUID-shaped but not a valid UUID. -/
def uuidShapedBytes : List Nat :=
  [97, 97, 97, 97, 97, 97, 97, 97, 45,
   97, 97, 97, 97, 45,
   97, 97, 97, 97, 45,
   97, 97, 97, 97, 45,
   97, 97, 97, 97, 97, 97, 97, 97, 97, 97, 97, 97]

/-- A UUID-shaped UTF-8 string value. -/
def uuidShaped : RString := ⟨uuidShapedBytes, false⟩

/-! ## Claims -/

/-- C7: a wire column whose type is outside the supported set decodes to
the fixed sentinel `Text` value `"[unsupported type]"`, for every such
type tag; the decoder is a total function into `RValue`, so it raises
nothing on this path. -/
theorem unsupported_wire_type_decodes_to_sentinel (tag : Nat) :
    convert_cass_value_to_ruby (.unsupported tag) = unsupportedSentinel ∧
    unsupportedSentinel = .str ⟨strBytes "[unsupported type]", true⟩ :=
  ⟨convert_unsupported tag, rfl⟩

/-- C8: a DECIMAL wire column decodes to the fixed placeholder
`BigDecimal("0")` whatever its unscaled bytes and scale are. -/
theorem decimal_decode_is_fixed_placeholder (bytes : List Nat) (scale : Int) :
    convert_cass_value_to_ruby (.decimal bytes scale) = .bigDecimalObj "0" :=
  convert_decimal bytes scale

/-- C9: a batch whose native execution settles with `CASS_OK` and
yields no rows — whether the native result is `NULL` or present but
empty — returns the empty ordered row sequence, not an error. -/
theorem batch_execute_empty_success_returns_empty_rowset (pr : Nat) :
    batch_execute (.ok ⟨pr, none⟩) = .ok (.array []) ∧
    batch_execute (.ok ⟨pr, some []⟩) = .ok (.array []) :=
  ⟨rfl, rfl⟩

/-- C10: `then`/`rescue` without a block raise `ArgumentError` and leave
the wrapper — in particular both registered continuations — unchanged;
with a block, the new Proc replaces any earlier continuation of the
same kind and the other kind is untouched. -/
theorem then_rescue_block_handling (w : FutureW) :
    future_then w none = (.error (.argumentError "no block given for then"), w) ∧
    (∀ p, future_then w (some p) = (.ok (), { w with callback_proc := some p })) ∧
    future_rescue w none = (.error (.argumentError "no block given for rescue"), w) ∧
    (∀ p, future_rescue w (some p) = (.ok (), { w with error_callback_proc := some p })) :=
  ⟨rfl, fun _ => rfl, rfl, fun _ => rfl⟩

/-- C5: a nil element of a collection being encoded is skipped with
`CASS_OK` (nothing appended, no error), and encoding the list
`[1, nil, 2]` yields the two-element wire collection `[Int32 1, Int32 2]`. -/
theorem collection_encode_skips_null_elements (E : Ext) :
    bind_ruby_value_to_collection E .nilV = .ok none ∧
    bind_ruby_value_to_statement E (.array [rubyIntOf 1, .nilV, rubyIntOf 2]) =
      .ok (.collectionW .list [.int32 1, .int32 2]) :=
  ⟨rfl, rfl⟩

/-- C6: every dependent handle records its retaining edge at
construction: a bound statement retains the prepared statement it came
from; a prepared statement, batch and future retain the creating
session; the only wrapper-mutating operations (`then`/`rescue`)
preserve the recorded session reference; and a prepared statement
produced by a prepare future's `value` retains that future's session. -/
theorem ownership_edges_recorded_at_construction :
    (∀ (p : PreparedObj) (h : Nat), (prepared_statement_bind p h).prepared_ref = p) ∧
    (∀ (s h : Nat), (session_prepare s h).session_ref = s) ∧
    (∀ (s : Nat) (t : Option Int) (bh : Nat), (session_batch s t bh).session_ref = s) ∧
    (∀ (o : NativeOutcome) (s : Nat) (t : FutureType), (future_new o s t).session_ref = s) ∧
    (∀ (s : Nat) (o : NativeOutcome),
      (session_execute_async s o).session_ref = s ∧
      (session_prepare_async s o).session_ref = s) ∧
    (∀ (w : FutureW) (b : Option Nat),
      (future_then w b).2.session_ref = w.session_ref ∧
      (future_rescue w b).2.session_ref = w.session_ref) ∧
    (∀ (w : FutureW) (p : NativePayload), w.type = .prepare → w.outcome = .ok p →
      future_value w false true = ⟨.ok (.prepared ⟨p.prepared, w.session_ref⟩), 0⟩) := by
  refine ⟨fun p h => rfl, fun s h => rfl, fun s t bh => rfl, fun o s t => rfl,
    fun s o => ⟨rfl, rfl⟩, fun w b => ?_, fun w p ht ho => ?_⟩
  · cases b <;> exact ⟨rfl, rfl⟩
  · simp [future_value, ho, ht]

/-- Witness for C6: the constructed handles of a concrete chain record
their ancestors. -/
theorem ownership_edges_witness :
    (prepared_statement_bind (session_prepare 9 42) 5).prepared_ref =
      session_prepare 9 42 ∧
    future_value prepReadyFuture false true =
      ⟨.ok (.prepared ⟨42, 9⟩), 0⟩ :=
  ⟨ownership_edges_recorded_at_construction.1 (session_prepare 9 42) 5,
   ownership_edges_recorded_at_construction.2.2.2.2.2.2 prepReadyFuture ⟨42, none⟩ rfl rfl⟩

/-- C1 counterexample: `future_value` writes no wrapper field, so a
second `value()` call is the same pure application on the same wrapper;
on a Ready(Success) execute future holding one one-cell row it performs
one decoder invocation — not the zero that "cached, decoded exactly
once, not re-invoked" requires. -/
theorem value_second_call_reinvokes_decoder :
    (future_value execReadyFuture false true).decodeCalls = 1 ∧
    ¬ (future_value execReadyFuture false true).decodeCalls = 0 :=
  ⟨rfl, fun h => Nat.one_ne_zero h⟩

/-- C1 amended: `value()` performs no caching: every call on a
Ready(Success) execute future — second calls included, since the
wrapper is not modified — re-runs the decoder on the native result
(one decoder invocation per cell) and returns the freshly decoded row
set; repeated calls return identical results only because this
re-execution is deterministic. -/
theorem value_redecodes_on_every_call (w : FutureW) (pr : Nat)
    (rows : List NativeRow)
    (ht : w.type = .execute) (ho : w.outcome = .ok ⟨pr, some rows⟩) :
    future_value w false true = ⟨.ok (.rows (decodeRows rows)), cellCount rows⟩ := by
  simp [future_value, ho, ht]

/-- Witness for the amended C1 at a concrete ready future. -/
theorem value_redecodes_witness :
    execReadyFuture.type = .execute ∧
    future_value execReadyFuture false true =
      ⟨.ok (.rows (decodeRows [row1])), cellCount [row1]⟩ :=
  ⟨rfl, value_redecodes_on_every_call execReadyFuture 0 [row1] rfl rfl⟩

/-- C2 counterexample: `future_execute_callbacks` maintains no
fired/not-fired latch and writes no wrapper field, so a second call on
the same ready wrapper is the same pure application; with a success
continuation registered it fires the continuation again — the
invocation list is not the empty one the claim requires of subsequent
calls. -/
theorem execute_callbacks_fires_again_on_second_call :
    future_execute_callbacks cbReadyFuture true =
      [.success 7 (.rows (decodeRows [row1]))] ∧
    ¬ future_execute_callbacks cbReadyFuture true = [] := by
  refine ⟨rfl, fun h => ?_⟩
  rw [show future_execute_callbacks cbReadyFuture true =
        [.success 7 (.rows (decodeRows [row1]))] from rfl] at h
  exact List.noConfusion h

/-- C2 amended: every `executeCallbacks()` call made while the native
future is ready fires the matching registered continuation exactly once
per call — with the decoded success value, or with the error message —
and a call while not ready fires nothing; since the wrapper is never
modified, each subsequent ready call fires the continuation again. -/
theorem execute_callbacks_fires_on_every_ready_call (w : FutureW) :
    (∀ (p : NativePayload) (proc : Nat),
      w.outcome = .ok p → w.callback_proc = some proc →
      future_execute_callbacks w true =
        [.success proc (decodeOutcome w.type p w.session_ref)]) ∧
    (∀ (m : List Nat) (proc : Nat),
      w.outcome = .err m → w.error_callback_proc = some proc →
      future_execute_callbacks w true = [.failure proc m]) ∧
    future_execute_callbacks w false = [] := by
  refine ⟨fun p proc ho hc => ?_, fun m proc ho hc => ?_, rfl⟩ <;>
    simp [future_execute_callbacks, ho, hc]

/-- Witness for the amended C2 at a concrete ready future with a
registered success continuation. -/
theorem execute_callbacks_once_per_call_witness :
    future_execute_callbacks cbReadyFuture true =
      [.success 7 (decodeOutcome cbReadyFuture.type ⟨0, some [row1]⟩
        cbReadyFuture.session_ref)] :=
  (execute_callbacks_fires_on_every_ready_call cbReadyFuture).1
    ⟨0, some [row1]⟩ 7 rfl rfl

/-- C3 counterexample: `2^31` is outside the int32 range, so the claim
requires it to be appended to a collection as Int64; but the collection
encoder converts Fixnums with `NUM2INT` unconditionally, which raises
`RangeError` for it (`2^31` is a Fixnum on 64-bit CRuby). -/
theorem collection_large_fixnum_raises_range_error :
    bind_ruby_value_to_collection extNone (rubyIntOf 2147483648) =
      .error .rangeError ∧
    ¬ bind_ruby_value_to_collection extNone (rubyIntOf 2147483648) =
        .ok (some (.int64 2147483648)) := by
  refine ⟨rfl, fun h => ?_⟩
  rw [show bind_ruby_value_to_collection extNone (rubyIntOf 2147483648) =
        .error .rangeError from rfl] at h
  exact Except.noConfusion h

/-- C3 amended: as a top-level bind parameter, an integer in the int32
range is encoded as Int32, one outside it but within the int64 range as
Int64, and `decode(encode(n)) == n` in both cases; an integer outside
the int64 range raises `RangeError` (`NUM2LL`).  As a collection
element the width split only holds for Bignums: a Fixnum goes through
`NUM2INT`, so it is encoded as Int32 when within the int32 range and
raises `RangeError` otherwise, while a Bignum within the int64 range is
encoded as Int64 (the round trip holds for every element actually
encoded). -/
theorem integer_width_selection (E : Ext) (n : Int) :
    (inInt32 n = true →
      bind_ruby_value_to_statement E (rubyIntOf n) = .ok (.int32 n) ∧
      convert_cass_value_to_ruby (wireToCass (.int32 n)) = rubyIntOf n) ∧
    (inInt32 n = false → inInt64 n = true →
      bind_ruby_value_to_statement E (rubyIntOf n) = .ok (.int64 n) ∧
      convert_cass_value_to_ruby (wireToCass (.int64 n)) = rubyIntOf n) ∧
    (inInt64 n = false →
      bind_ruby_value_to_statement E (rubyIntOf n) = .error .rangeError) ∧
    (inInt32 n = true →
      bind_ruby_value_to_collection E (rubyIntOf n) = .ok (some (.int32 n))) ∧
    (isFixnum n = true → inInt32 n = false →
      bind_ruby_value_to_collection E (rubyIntOf n) = .error .rangeError) ∧
    (isFixnum n = false → inInt64 n = true →
      bind_ruby_value_to_collection E (rubyIntOf n) = .ok (some (.int64 n))) := by
  have hi32 : inInt32 n = true ↔ int32Min ≤ n ∧ n ≤ int32Max := by
    simp [inInt32]
  have hi64 : inInt64 n = true ↔ int64Min ≤ n ∧ n ≤ int64Max := by
    simp [inInt64]
  have hfx : isFixnum n = true ↔ fixnumMin ≤ n ∧ n ≤ fixnumMax := by
    simp [isFixnum]
  refine ⟨fun h32 => ?_, fun h32 h64 => ?_, fun h64 => ?_,
    fun h32 => ?_, fun hf h32 => ?_, fun hf h64 => ?_⟩
  · have hf : isFixnum n = true := by
      rw [hfx]; rw [hi32] at h32
      simp [int32Min, int32Max, fixnumMin, fixnumMax] at h32 ⊢; omega
    refine ⟨?_, by simp⟩
    simp [rubyIntOf, hf, bind_ruby_value_to_statement, h32]
  · refine ⟨?_, by simp⟩
    rcases hfc : isFixnum n with _ | _ <;>
      simp [rubyIntOf, hfc, bind_ruby_value_to_statement, h32, h64]
  · have hf : isFixnum n = false := by
      rcases hfc : isFixnum n with _ | _
      · rfl
      · exfalso
        rw [hfx] at hfc
        have : inInt64 n = true := by
          rw [hi64]
          simp [int64Min, int64Max, fixnumMin, fixnumMax] at hfc ⊢; omega
        simp [this] at h64
    simp [rubyIntOf, hf, bind_ruby_value_to_statement, h64]
  · have hf : isFixnum n = true := by
      rw [hfx]; rw [hi32] at h32
      simp [int32Min, int32Max, fixnumMin, fixnumMax] at h32 ⊢; omega
    simp [rubyIntOf, hf, bind_ruby_value_to_collection, h32]
  · simp [rubyIntOf, hf, bind_ruby_value_to_collection, h32]
  · simp [rubyIntOf, hf, bind_ruby_value_to_collection, h64]

/-- Witness for the amended C3: the four branches at concrete integers
5, 2^31 (top-level and collection) and 2^62. -/
theorem integer_width_witness :
    bind_ruby_value_to_statement extNone (rubyIntOf 5) = .ok (.int32 5) ∧
    bind_ruby_value_to_statement extNone (rubyIntOf 2147483648) =
      .ok (.int64 2147483648) ∧
    bind_ruby_value_to_collection extNone (rubyIntOf 2147483648) =
      .error .rangeError ∧
    bind_ruby_value_to_collection extNone (rubyIntOf 4611686018427387904) =
      .ok (some (.int64 4611686018427387904)) :=
  ⟨((integer_width_selection extNone 5).1 (by decide)).1,
   ((integer_width_selection extNone 2147483648).2.1 (by decide) (by decide)).1,
   (integer_width_selection extNone 2147483648).2.2.2.2.1 (by decide) (by decide),
   (integer_width_selection extNone 4611686018427387904).2.2.2.2.2
     (by decide) (by decide)⟩

/-- C4: for a string that is exactly 36 bytes with `-` at positions
8, 13, 18 and 23, UUID parsing is attempted when the string has no
embedded NUL: on success the string is bound as Uuid; on parse failure
it falls back to text (or blob when the encoding is binary); with an
embedded NUL the UUID attempt is skipped and the string is bound as a
blob; and string encoding at the statement level never raises. -/
theorem uuid_heuristic_fallback (E : Ext) (s : RString)
    (hshape : hasUuidShape s.bytes = true) :
    (∀ u, s.bytes.contains 0 = false → E.parseUuid s.bytes = some u →
      bind_ruby_value_to_statement E (.str s) = .ok (.uuidW u)) ∧
    (s.bytes.contains 0 = true →
      bind_ruby_value_to_statement E (.str s) = .ok (.bytesW s.bytes)) ∧
    (s.bytes.contains 0 = false → E.parseUuid s.bytes = none →
      bind_ruby_value_to_statement E (.str s) =
        .ok (if s.binary then .bytesW s.bytes else .textW s.bytes)) ∧
    (∀ s' : RString, ∃ w, bind_ruby_value_to_statement E (.str s') = .ok w) := by
  refine ⟨fun u hnul hp => ?_, fun hnul => ?_, fun hnul hp => ?_, fun s' => ?_⟩
  · have hnul' : (0 : Nat) ∉ s.bytes := by simpa using hnul
    simp [bind_ruby_value_to_statement, hshape, hnul', hp]
  · have hnul' : (0 : Nat) ∈ s.bytes := by simpa using hnul
    simp [bind_ruby_value_to_statement, hshape, hnul']
  · have hnul' : (0 : Nat) ∉ s.bytes := by simpa using hnul
    rcases hb : s.binary with _ | _ <;>
      simp [bind_ruby_value_to_statement, hshape, hnul', hp, hb]
  · simp only [bind_ruby_value_to_statement]
    rcases hsh : hasUuidShape s'.bytes with _ | _ <;>
      rcases hnul : s'.bytes.contains 0 with _ | _ <;>
      rcases hb : s'.binary with _ | _
    all_goals try (exact ⟨_, rfl⟩)
    all_goals rcases hp : E.parseUuid s'.bytes with _ | u <;> simp [hp]

/-- Witness for C4: the UUID-shaped 36-byte string `"aaaaaaaa-..."`,
with a parse function that rejects it, binds as text, not an error. -/
theorem uuid_heuristic_witness :
    bind_ruby_value_to_statement extNone (.str uuidShaped) =
      .ok (.textW uuidShaped.bytes) := by
  have h := (uuid_heuristic_fallback extNone uuidShaped (by decide)).2.2.1
    (by decide) rfl
  simpa [uuidShaped] using h

end CassandraCpp
